import Mathlib

/-!
Verification of the diagnostic scoring engine
(`analysis/symptom_engine.py` and the symptom-row construction of
`analysis/diagnose_runs.py`).

The engine is embedded shallowly:
* Python floats become `Rat` (the engine only compares magnitudes);
* Python dicts (`run_row`, `thr_map`, the `clusters` mapping) become
  association lists queried with `List.lookup`;
* the severity strings `'normal' | 'mild' | 'moderate' | 'severe'` become
  the inductive `Severity` (`sevStr` recovers the source strings);
* `raise KeyError` becomes `Option.none`: Python evaluates the default
  argument of `thr_map.get(m, thr_map['global'])` eagerly, so resolution
  of a threshold fails whenever `'global'` is absent from the map, even
  when the key itself is present — `resolveThr` models exactly that.
-/

/-- Severity tiers of `symptom_engine.py` (`'normal'|'mild'|'moderate'|'severe'`). -/
inductive Severity where
  | normal
  | mild
  | moderate
  | severe
deriving DecidableEq

/-- The Python string denoting each severity tier. -/
def sevStr : Severity → String
  | .normal => "normal"
  | .mild => "mild"
  | .moderate => "moderate"
  | .severe => "severe"

/-- Ordinal rank of a severity tier: normal < mild < moderate < severe. -/
def sevRank : Severity → Nat
  | .normal => 0
  | .mild => 1
  | .moderate => 2
  | .severe => 3

/-- The `Thresholds` dataclass of `symptom_engine.py` (fields in source order). -/
structure Thresholds where
  severe : Rat
  moderate : Rat
  mild : Rat
deriving DecidableEq

/-- `classify_severity(z, thr)` of `symptom_engine.py`:
classify `abs z` against the bounds, checking `severe`, `moderate`, `mild`
in that order with `≥`, else `normal`. -/
def classify_severity (z : Rat) (thr : Thresholds) : Severity :=
  let a := |z|
  if a ≥ thr.severe then .severe
  else if a ≥ thr.moderate then .moderate
  else if a ≥ thr.mild then .mild
  else .normal

/-- The `WEIGHT` mapping of `symptom_engine.py`:
`{'severe': 3, 'moderate': 2, 'mild': 1, 'normal': 0}`. -/
def WEIGHT : Severity → Int
  | .severe => 3
  | .moderate => 2
  | .mild => 1
  | .normal => 0

/-- A `run_row`: a finite partial mapping from string keys to measured values
(an absent key means "not measured for this run"). -/
abbrev RunRow := List (String × Rat)

/-- A cluster definition: the `metrics` and `indicators` lists configured for
one cluster (`c.get('metrics', [])` / `c.get('indicators', [])`). -/
structure ClusterDef where
  metrics : List String
  indicators : List String
deriving DecidableEq

/-- The `cluster_map` configuration: its `'clusters'` entry, a mapping from
cluster name to cluster definition (insertion-ordered, keys unique). -/
structure ClusterMapCfg where
  clusters : List (String × ClusterDef)
deriving DecidableEq

/-- The `thr_map` configuration: a mapping from metric/indicator key to
`Thresholds`. -/
abbrev ThrMap := List (String × Thresholds)

/-- One element of the `records` list built by `cluster_scores`:
`{'metric': m, 'z': z, 'severity': sev, 'cluster': cname}`. -/
structure SymptomRecord where
  metric : String
  z : Rat
  severity : Severity
  cluster : String
deriving DecidableEq

/-- Metric value resolution of `cluster_scores`:
`run_row.get('z_' + m, run_row.get(m + '_z_local'))` — try the key
`"z_" ++ m` first, then `m ++ "_z_local"`. -/
def metricValue (row : RunRow) (m : String) : Option Rat :=
  (row.lookup ("z_" ++ m)).orElse fun _ => row.lookup (m ++ "_z_local")

/-- Threshold resolution of `cluster_scores`: `thr_map.get(k, thr_map['global'])`.
Python evaluates the default argument first, so the `'global'` entry is read
unconditionally: if it is absent a `KeyError` is raised (modelled as `none`)
even when `k` itself is present in the map. -/
def resolveThr (thrMap : ThrMap) (k : String) : Option Thresholds :=
  match thrMap.lookup "global" with
  | none => none
  | some g => some ((thrMap.lookup k).getD g)

/-- The shared body of the two per-cluster loops of `cluster_scores`, run on the
keyed lookups `(k, run_row value for k)` in loop order: a missing value is
skipped (`continue`), otherwise the thresholds for `k` are resolved (a failed
resolution aborts with `KeyError` = `none`), the value is classified, its
weight added to the running score and a record appended. -/
def processKeys (thrMap : ThrMap) (cname : String) :
    List (String × Option Rat) → Int × List SymptomRecord →
    Option (Int × List SymptomRecord)
  | [], acc => some acc
  | (_, none) :: rest, acc => processKeys thrMap cname rest acc
  | (k, some v) :: rest, acc =>
    match resolveThr thrMap k with
    | none => none
    | some thr =>
      let sev := classify_severity v thr
      processKeys thrMap cname rest
        (acc.1 + WEIGHT sev, acc.2 ++ [⟨k, v, sev, cname⟩])

/-- The keyed lookups one cluster performs, in loop order: each configured
metric `m` paired with `metricValue row m`, then each configured indicator `i`
paired with `row.lookup i`. -/
def keyedValues (row : RunRow) (c : ClusterDef) : List (String × Option Rat) :=
  c.metrics.map (fun m => (m, metricValue row m))
    ++ c.indicators.map (fun i => (i, row.lookup i))

/-- Processing of one cluster by `cluster_scores`: the metric loop followed by
the indicator loop, starting from score `0` and no records. -/
def processCluster (row : RunRow) (thrMap : ThrMap) (cname : String)
    (c : ClusterDef) : Option (Int × List SymptomRecord) :=
  processKeys thrMap cname (keyedValues row c) (0, [])

/-- The label assignment loop of `cluster_scores`:
`'strong' if s ≥ 6, 'moderate' if s ≥ 3, 'weak' if s ≥ 1, else 'none'`. -/
def labelOf (s : Int) : String :=
  if s ≥ 6 then "strong"
  else if s ≥ 3 then "moderate"
  else if s ≥ 1 then "weak"
  else "none"

/-- The main cluster loop of `cluster_scores`: process each configured cluster
in order, collecting per-cluster scores and concatenating the records; a
`KeyError` anywhere aborts the whole call. -/
def runClusters (row : RunRow) (thrMap : ThrMap) :
    List (String × ClusterDef) → Option (List (String × Int) × List SymptomRecord)
  | [] => some ([], [])
  | (cname, c) :: rest =>
    match processCluster row thrMap cname c with
    | none => none
    | some (s, recs) =>
      match runClusters row thrMap rest with
      | none => none
      | some (scores, records) => some ((cname, s) :: scores, recs ++ records)

/-- `cluster_scores(run_row, cluster_map, thr_map)` of `symptom_engine.py`:
returns the per-cluster scores, the per-cluster labels derived from the scores
by `labelOf`, and the list of all symptom records; `none` models an escaping
`KeyError`. -/
def cluster_scores (row : RunRow) (cm : ClusterMapCfg) (thrMap : ThrMap) :
    Option (List (String × Int) × List (String × String) × List SymptomRecord) :=
  match runClusters row thrMap cm.clusters with
  | none => none
  | some (scores, records) =>
    some (scores, scores.map (fun p => (p.1, labelOf p.2)), records)

/-- The `(run, resolved key, value)` observations of one cluster: the configured
metrics and indicators whose run-row lookup succeeded, with their values, in
loop order. -/
def resolvedPairs (row : RunRow) (c : ClusterDef) : List (String × Rat) :=
  (keyedValues row c).filterMap fun p => p.2.map fun v => (p.1, v)

/-- The severity `cluster_scores` assigns to value `v` resolved for configured
key `k`, given the `'global'` fallback `g`: classification against
`thr_map[k]` when present, else against `g`. -/
def severityFor (thrMap : ThrMap) (g : Thresholds) (k : String) (v : Rat) :
    Severity :=
  classify_severity v ((thrMap.lookup k).getD g)

/-- The score of one cluster: the sum of `WEIGHT` of the severity of each
resolved observation. -/
def clusterScoreSpec (row : RunRow) (thrMap : ThrMap) (g : Thresholds)
    (c : ClusterDef) : Int :=
  ((resolvedPairs row c).map fun q => WEIGHT (severityFor thrMap g q.1 q.2)).sum

/-- The symptom records of one cluster: one record per resolved observation,
carrying the configured key, the value, its severity and the cluster name. -/
def clusterRecordsSpec (row : RunRow) (thrMap : ThrMap) (g : Thresholds)
    (cname : String) (c : ClusterDef) : List SymptomRecord :=
  (resolvedPairs row c).map fun q =>
    ⟨q.1, q.2, severityFor thrMap g q.1 q.2, cname⟩

/-- A cell of an output-table row built by `diagnose_runs.py`: a string or a
number. -/
inductive CellVal where
  | s (x : String)
  | q (x : Rat)
deriving DecidableEq

/-- One row appended to `symptom_rows` by `diagnose_runs` for a record `r`:
`{'run': row['run'], 'metric': r['metric'], 'z': r['z'],
'severity': r['severity'], 'clusters': r['cluster']}`, as an ordered
field-name/value mapping. -/
def symptomRow (runId : CellVal) (r : SymptomRecord) : List (String × CellVal) :=
  [("run", runId), ("metric", .s r.metric), ("z", .q r.z),
    ("severity", .s (sevStr r.severity)), ("clusters", .s r.cluster)]

/-- The symptom-table rows `diagnose_runs` appends for one run: one row per
record returned by `cluster_scores`. -/
def symptomRowsFor (runId : CellVal) (recs : List SymptomRecord) :
    List (List (String × CellVal)) :=
  recs.map (symptomRow runId)

theorem processKeys_eq_of_global (thrMap : ThrMap) (g : Thresholds)
    (hg : thrMap.lookup "global" = some g) (cname : String) :
    ∀ (kvs : List (String × Option Rat)) (s : Int) (rs : List SymptomRecord),
    processKeys thrMap cname kvs (s, rs) =
      some (s + ((kvs.filterMap fun p => p.2.map fun v => (p.1, v)).map
                  fun q => WEIGHT (severityFor thrMap g q.1 q.2)).sum,
            rs ++ ((kvs.filterMap fun p => p.2.map fun v => (p.1, v)).map
                  fun q => (⟨q.1, q.2, severityFor thrMap g q.1 q.2, cname⟩ :
                    SymptomRecord))) := by
  intro kvs
  induction kvs with
  | nil => intro s rs; simp [processKeys]
  | cons p rest ih =>
    obtain ⟨k, v⟩ := p
    intro s rs
    cases v with
    | none => simpa [processKeys] using ih s rs
    | some v =>
      simp only [processKeys, resolveThr, hg]
      rw [ih]
      simp [severityFor, add_assoc]

theorem processCluster_eq_of_global (row : RunRow) (thrMap : ThrMap)
    (g : Thresholds) (hg : thrMap.lookup "global" = some g) (cname : String)
    (c : ClusterDef) :
    processCluster row thrMap cname c =
      some (clusterScoreSpec row thrMap g c,
        clusterRecordsSpec row thrMap g cname c) := by
  simp [processCluster, clusterScoreSpec, clusterRecordsSpec, resolvedPairs,
    processKeys_eq_of_global thrMap g hg cname]

theorem runClusters_eq_of_global (row : RunRow) (thrMap : ThrMap)
    (g : Thresholds) (hg : thrMap.lookup "global" = some g) :
    ∀ cs : List (String × ClusterDef),
    runClusters row thrMap cs =
      some (cs.map fun p => (p.1, clusterScoreSpec row thrMap g p.2),
            (cs.map fun p => clusterRecordsSpec row thrMap g p.1 p.2).flatten) := by
  intro cs
  induction cs with
  | nil => simp [runClusters]
  | cons p rest ih =>
    obtain ⟨cname, c⟩ := p
    simp [runClusters, processCluster_eq_of_global row thrMap g hg, ih]

theorem cluster_scores_eq_of_global (row : RunRow) (cm : ClusterMapCfg)
    (thrMap : ThrMap) (g : Thresholds) (hg : thrMap.lookup "global" = some g) :
    cluster_scores row cm thrMap =
      some (cm.clusters.map fun p => (p.1, clusterScoreSpec row thrMap g p.2),
            cm.clusters.map fun p =>
              (p.1, labelOf (clusterScoreSpec row thrMap g p.2)),
            (cm.clusters.map fun p =>
              clusterRecordsSpec row thrMap g p.1 p.2).flatten) := by
  simp [cluster_scores, runClusters_eq_of_global row thrMap g hg]

/-- Claim C2: `classify_severity` uses the absolute value and checks the three
bounds in order `severe`, `moderate`, `mild` with `≥`, returning `normal` when
none holds. -/
theorem classify_severity_order (v : Rat) (thr : Thresholds) :
    (classify_severity v thr = .severe ↔ thr.severe ≤ |v|) ∧
    (classify_severity v thr = .moderate ↔ ¬ thr.severe ≤ |v| ∧ thr.moderate ≤ |v|) ∧
    (classify_severity v thr = .mild ↔
      ¬ thr.severe ≤ |v| ∧ ¬ thr.moderate ≤ |v| ∧ thr.mild ≤ |v|) ∧
    (classify_severity v thr = .normal ↔
      ¬ thr.severe ≤ |v| ∧ ¬ thr.moderate ≤ |v| ∧ ¬ thr.mild ≤ |v|) := by
  simp only [classify_severity, ge_iff_le]
  split_ifs with h1 h2 h3 <;> simp_all

/-- Claim C6 counterexample: with `thr = Thresholds.mk 0 0 1`
(`severe = 0`, `moderate = 0`, `mild = 1`) we have `thr.mild > 0`, yet
`classify_severity 0 thr` is `severe`, not `normal`, because `|0| ≥ 0`
triggers the first check. -/
theorem classify_zero_counterexample :
    (0 : Rat) < (Thresholds.mk 0 0 1).mild ∧
    classify_severity 0 (Thresholds.mk 0 0 1) = .severe ∧
    Severity.severe ≠ Severity.normal := by
  refine ⟨by norm_num, ?_, by decide⟩
  simp [classify_severity]

/-- Claim C6 (amended): when all three bounds are positive (in particular
whenever `mild > 0` and the documented invariant `severe ≥ moderate ≥ mild`
holds), `classify_severity 0 thr = normal`. -/
theorem classify_zero_normal (thr : Thresholds)
    (hm : 0 < thr.mild) (hmo : 0 < thr.moderate) (hs : 0 < thr.severe) :
    classify_severity 0 thr = .normal := by
  simp only [classify_severity, abs_zero, ge_iff_le]
  rw [if_neg (by exact not_le.mpr hs), if_neg (by exact not_le.mpr hmo),
    if_neg (by exact not_le.mpr hm)]

/-- Claim C6 witness: the amended statement at `thr = Thresholds.mk 3 2 1`. -/
theorem classify_zero_normal_witness :
    (0 : Rat) < (Thresholds.mk 3 2 1).mild ∧
    (0 : Rat) < (Thresholds.mk 3 2 1).moderate ∧
    (0 : Rat) < (Thresholds.mk 3 2 1).severe ∧
    classify_severity 0 (Thresholds.mk 3 2 1) = .normal :=
  ⟨by norm_num, by norm_num, by norm_num,
    classify_zero_normal (Thresholds.mk 3 2 1) (by norm_num) (by norm_num) (by norm_num)⟩

/-- Claim C7: with ordered nonnegative thresholds, `classify_severity` is
monotone non-decreasing in `|z|` for the order normal < mild < moderate <
severe. -/
theorem classify_severity_monotone (thr : Thresholds) (x y : Rat)
    (hord : thr.moderate ≤ thr.severe ∧ thr.mild ≤ thr.moderate ∧ 0 ≤ thr.mild)
    (hxy : |x| ≤ |y|) :
    sevRank (classify_severity x thr) ≤ sevRank (classify_severity y thr) := by
  obtain ⟨h1, h2, h3⟩ := hord
  simp only [classify_severity, ge_iff_le]
  split_ifs <;> simp [sevRank] <;> linarith

/-- Claim C7 witness: monotonicity applied at `thr = Thresholds.mk 3 2 1`,
`x = 1`, `y = -5/2`. -/
theorem classify_severity_monotone_witness :
    ((Thresholds.mk 3 2 1).moderate ≤ (Thresholds.mk 3 2 1).severe ∧
      (Thresholds.mk 3 2 1).mild ≤ (Thresholds.mk 3 2 1).moderate ∧
      (0 : Rat) ≤ (Thresholds.mk 3 2 1).mild) ∧
    |(1 : Rat)| ≤ |(-5/2 : Rat)| ∧
    sevRank (classify_severity 1 (Thresholds.mk 3 2 1)) ≤
      sevRank (classify_severity (-5/2) (Thresholds.mk 3 2 1)) :=
  ⟨⟨by norm_num, by norm_num, by norm_num⟩, by rw [abs_of_nonneg, abs_of_nonpos] <;> norm_num,
    classify_severity_monotone (Thresholds.mk 3 2 1) 1 (-5/2)
      ⟨by norm_num, by norm_num, by norm_num⟩
      (by rw [abs_of_nonneg, abs_of_nonpos] <;> norm_num)⟩

/-- Claim C1: with a `'global'` entry present, the score `cluster_scores`
returns for each cluster is the sum of `WEIGHT` of the severity of every value
resolved for that cluster's configured metrics and indicators, and a cluster
for which no configured key resolves gets score `0` and label `"none"`. -/
theorem cluster_scores_sum_of_weights (row : RunRow) (cm : ClusterMapCfg)
    (thrMap : ThrMap) (g : Thresholds) (hg : thrMap.lookup "global" = some g) :
    (∃ records, cluster_scores row cm thrMap =
      some (cm.clusters.map fun p =>
          (p.1, ((resolvedPairs row p.2).map fun q =>
            WEIGHT (severityFor thrMap g q.1 q.2)).sum),
        cm.clusters.map fun p =>
          (p.1, labelOf ((resolvedPairs row p.2).map fun q =>
            WEIGHT (severityFor thrMap g q.1 q.2)).sum),
        records)) ∧
    ∀ p ∈ cm.clusters, resolvedPairs row p.2 = [] →
      ((resolvedPairs row p.2).map fun q =>
        WEIGHT (severityFor thrMap g q.1 q.2)).sum = 0 ∧
      labelOf ((resolvedPairs row p.2).map fun q =>
        WEIGHT (severityFor thrMap g q.1 q.2)).sum = "none" := by
  refine ⟨⟨_, by rw [cluster_scores_eq_of_global row cm thrMap g hg]; rfl⟩, ?_⟩
  intro p _ hres
  rw [hres]
  exact ⟨rfl, rfl⟩

/-- Claim C1 witness: the amended scoring identity at a concrete run row with
one fully-resolved cluster (`z_A = 2`, `B_z_local = 4`, indicator `ind = 1`,
score `2 + 3 + 1 = 6`, label `strong`) and one unresolvable cluster (score
`0`, label `none`). -/
theorem cluster_scores_sum_of_weights_witness :
    (([("global", Thresholds.mk 3 2 1)] : ThrMap).lookup "global" =
      some (Thresholds.mk 3 2 1)) ∧
    (∃ records, cluster_scores [("z_A", 2), ("B_z_local", 4), ("ind", 1)]
      (ClusterMapCfg.mk [("C", ClusterDef.mk ["A", "B"] ["ind"]),
        ("D", ClusterDef.mk ["Q"] [])])
      [("global", Thresholds.mk 3 2 1)] =
      some ([("C", 6), ("D", 0)], [("C", "strong"), ("D", "none")], records)) := by
  refine ⟨rfl, ?_⟩
  obtain ⟨⟨records, hr⟩, -⟩ :=
    cluster_scores_sum_of_weights [("z_A", 2), ("B_z_local", 4), ("ind", 1)]
      (ClusterMapCfg.mk [("C", ClusterDef.mk ["A", "B"] ["ind"]),
        ("D", ClusterDef.mk ["Q"] [])])
      [("global", Thresholds.mk 3 2 1)] (Thresholds.mk 3 2 1) rfl
  refine ⟨records, ?_⟩
  rw [hr]
  simp only [Option.some.injEq, Prod.mk.injEq]
  exact ⟨by decide, by decide, trivial⟩

/-- Claim C8: with a `'global'` entry present, the records `cluster_scores`
returns are exactly one `SymptomRecord` per resolved value of each cluster —
carrying the configured key, the resolved value, its classified severity
(also when it is `normal`) and the cluster's name — and no record exists for
an unresolved key. -/
theorem cluster_scores_records_one_per_resolved (row : RunRow)
    (cm : ClusterMapCfg) (thrMap : ThrMap) (g : Thresholds)
    (hg : thrMap.lookup "global" = some g) :
    ∃ scores labels, cluster_scores row cm thrMap =
      some (scores, labels,
        (cm.clusters.map fun p => (resolvedPairs row p.2).map fun q =>
          (⟨q.1, q.2, severityFor thrMap g q.1 q.2, p.1⟩ :
            SymptomRecord)).flatten) :=
  ⟨_, _, by rw [cluster_scores_eq_of_global row cm thrMap g hg]; rfl⟩

/-- Claim C8 witness: at a concrete run row, a value of severity `normal`
(`z_A = 0`) still yields a record, and the unresolved metric `Q` yields
none. -/
theorem cluster_scores_records_one_per_resolved_witness :
    (([("global", Thresholds.mk 3 2 1)] : ThrMap).lookup "global" =
      some (Thresholds.mk 3 2 1)) ∧
    (∃ scores labels, cluster_scores [("z_A", 0)]
      (ClusterMapCfg.mk [("C", ClusterDef.mk ["A", "Q"] [])])
      [("global", Thresholds.mk 3 2 1)] =
      some (scores, labels, [⟨"A", 0, .normal, "C"⟩])) := by
  refine ⟨rfl, ?_⟩
  obtain ⟨scores, labels, hr⟩ :=
    cluster_scores_records_one_per_resolved [("z_A", 0)]
      (ClusterMapCfg.mk [("C", ClusterDef.mk ["A", "Q"] [])])
      [("global", Thresholds.mk 3 2 1)] (Thresholds.mk 3 2 1) rfl
  refine ⟨scores, labels, ?_⟩
  rw [hr]
  simp only [Option.some.injEq, Prod.mk.injEq]
  exact ⟨trivial, trivial, by decide⟩

/-- Claim C3: the label of a score `s` is `"strong"` iff `s ≥ 6`, `"moderate"`
iff `3 ≤ s < 6`, `"weak"` iff `1 ≤ s < 3` and `"none"` iff `s < 1`; in
particular `6 ↦ strong`, `5, 3 ↦ moderate`, `2, 1 ↦ weak`, `0 ↦ none`; and
`cluster_scores` assigns every cluster its label by applying `labelOf` to that
cluster's score, identically for every cluster. -/
theorem labelOf_breakpoints :
    (∀ s : Int,
      (labelOf s = "strong" ↔ 6 ≤ s) ∧
      (labelOf s = "moderate" ↔ 3 ≤ s ∧ s < 6) ∧
      (labelOf s = "weak" ↔ 1 ≤ s ∧ s < 3) ∧
      (labelOf s = "none" ↔ s < 1)) ∧
    labelOf 6 = "strong" ∧ labelOf 5 = "moderate" ∧ labelOf 3 = "moderate" ∧
    labelOf 2 = "weak" ∧ labelOf 1 = "weak" ∧ labelOf 0 = "none" ∧
    (∀ (row : RunRow) (cm : ClusterMapCfg) (thrMap : ThrMap) res,
      cluster_scores row cm thrMap = some res →
      res.2.1 = res.1.map fun p => (p.1, labelOf p.2)) := by
  refine ⟨fun s => ?_, by decide, by decide, by decide, by decide, by decide,
    by decide, fun row cm thrMap res h => ?_⟩
  · unfold labelOf
    split_ifs with h1 h2 h3 <;>
      refine ⟨⟨fun he => ?_, fun hs => ?_⟩, ⟨fun he => ?_, fun hs => ?_⟩,
        ⟨fun he => ?_, fun hs => ?_⟩, ⟨fun he => ?_, fun hs => ?_⟩⟩ <;>
      first
        | omega
        | rfl
        | exact absurd he (by decide)
  · unfold cluster_scores at h
    cases hrc : runClusters row thrMap cm.clusters with
    | none => rw [hrc] at h; exact absurd h (by simp)
    | some p =>
      rw [hrc] at h
      obtain ⟨scores, records⟩ := p
      simp only [Option.some.injEq] at h
      rw [← h]

/-- Claim C3 witness: the `cluster_scores` conjunct applied at a concrete run
(cluster score `2`, label `weak`). -/
theorem labelOf_breakpoints_witness :
    cluster_scores [("z_A", 2)] (ClusterMapCfg.mk [("C", ClusterDef.mk ["A"] [])])
      [("global", Thresholds.mk 3 2 1)] =
      some ([("C", 2)], [("C", "weak")],
        [⟨"A", 2, .moderate, "C"⟩]) ∧
    ([("C", "weak")] : List (String × String)) =
      ([("C", 2)] : List (String × Int)).map (fun p => (p.1, labelOf p.2)) := by
  refine ⟨by decide, ?_⟩
  have h := labelOf_breakpoints.2.2.2.2.2.2.2 [("z_A", 2)]
    (ClusterMapCfg.mk [("C", ClusterDef.mk ["A"] [])])
    [("global", Thresholds.mk 3 2 1)]
    ([("C", 2)], [("C", "weak")], [⟨"A", 2, .moderate, "C"⟩]) (by decide)
  exact h

theorem processKeys_skip_none (thrMap : ThrMap) (cname : String) (k : String) :
    ∀ (xs ys : List (String × Option Rat)) (acc : Int × List SymptomRecord),
    processKeys thrMap cname (xs ++ (k, none) :: ys) acc =
      processKeys thrMap cname (xs ++ ys) acc := by
  intro xs
  induction xs with
  | nil => intro ys acc; simp [processKeys]
  | cons p rest ih =>
    intro ys acc
    obtain ⟨k', v'⟩ := p
    cases v' with
    | none =>
      simp only [List.cons_append, processKeys]
      exact ih ys acc
    | some v =>
      simp only [List.cons_append, processKeys]
      cases resolveThr thrMap k' with
      | none => rfl
      | some thr => exact ih ys _

/-- Claim C4: a configured metric `m` resolves from the run row by key
`"z_" ++ m` first and only when that key is absent by key `m ++ "_z_local"`;
a metric for which neither key is present contributes nothing to the cluster:
processing the cluster with `m` among its metrics equals processing it with
`m` removed. -/
theorem metric_resolution_priority_and_skip :
    (∀ (row : RunRow) (m : String) (v : Rat),
      row.lookup ("z_" ++ m) = some v → metricValue row m = some v) ∧
    (∀ (row : RunRow) (m : String),
      row.lookup ("z_" ++ m) = none →
      metricValue row m = row.lookup (m ++ "_z_local")) ∧
    (∀ (row : RunRow) (thrMap : ThrMap) (cname : String)
      (ms₁ ms₂ inds : List String) (m : String),
      metricValue row m = none →
      processCluster row thrMap cname (ClusterDef.mk (ms₁ ++ m :: ms₂) inds) =
        processCluster row thrMap cname (ClusterDef.mk (ms₁ ++ ms₂) inds)) := by
  refine ⟨fun row m v h => ?_, fun row m h => ?_, fun row thrMap cname ms₁ ms₂ inds m h => ?_⟩
  · simp [metricValue, h, Option.orElse]
  · simp [metricValue, h, Option.orElse]
  · simp only [processCluster, keyedValues, List.map_append, List.map_cons, h,
      List.cons_append, List.append_assoc]
    exact processKeys_skip_none thrMap cname m _ _ _

/-- Claim C4 witness: the three conjuncts at concrete inputs — `z_a` wins over
`a_z_local` when both are present, `a_z_local` is used when `z_a` is absent,
and an unresolvable metric `q` between `a` and `b` leaves the cluster result
unchanged. -/
theorem metric_resolution_priority_and_skip_witness :
    (([("z_a", 7), ("a_z_local", 9)] : RunRow).lookup ("z_" ++ "a") = some 7 ∧
      metricValue [("z_a", 7), ("a_z_local", 9)] "a" = some 7) ∧
    (([("a_z_local", 9)] : RunRow).lookup ("z_" ++ "a") = none ∧
      metricValue [("a_z_local", 9)] "a" =
        ([("a_z_local", 9)] : RunRow).lookup ("a" ++ "_z_local")) ∧
    (metricValue [("z_a", 7), ("z_b", 1)] "q" = none ∧
      processCluster [("z_a", 7), ("z_b", 1)] [("global", Thresholds.mk 3 2 1)]
        "C" (ClusterDef.mk (["a"] ++ "q" :: ["b"]) []) =
      processCluster [("z_a", 7), ("z_b", 1)] [("global", Thresholds.mk 3 2 1)]
        "C" (ClusterDef.mk (["a"] ++ ["b"]) [])) :=
  ⟨⟨by decide, metric_resolution_priority_and_skip.1
      [("z_a", 7), ("a_z_local", 9)] "a" 7 (by decide)⟩,
    ⟨by decide, metric_resolution_priority_and_skip.2.1
      [("a_z_local", 9)] "a" (by decide)⟩,
    ⟨by decide, metric_resolution_priority_and_skip.2.2
      [("z_a", 7), ("z_b", 1)] [("global", Thresholds.mk 3 2 1)] "C"
      ["a"] ["b"] [] "q" (by decide)⟩⟩

/-- Claim C5 counterexample: metric `a` resolves via run-row key `"z_a"`, and
the threshold map has a dedicated entry for `"z_a"` under which the value `5`
classifies as `normal`; yet `cluster_scores` classifies it as `severe`,
because it resolves thresholds by the configured metric name `"a"` (falling
back to `"global"`), not by the RunRow key `"z_a"`. -/
theorem threshold_key_counterexample :
    cluster_scores [("z_a", 5)]
        (ClusterMapCfg.mk [("c", ClusterDef.mk ["a"] [])])
        [("global", Thresholds.mk 1 1 1), ("z_a", Thresholds.mk 100 100 100)] =
      some ([("c", 3)], [("c", "moderate")],
        [⟨"a", 5, .severe, "c"⟩]) ∧
    classify_severity 5
        ((([("global", Thresholds.mk 1 1 1), ("z_a", Thresholds.mk 100 100 100)] :
          ThrMap).lookup "z_a").getD (Thresholds.mk 1 1 1)) = .normal ∧
    Severity.severe ≠ Severity.normal :=
  ⟨by decide, by decide, by decide⟩

/-- Claim C5 (amended): `resolveThr k` returns `thrMap[k]` when present and
`thrMap["global"]` otherwise, and every record `cluster_scores` emits is
classified with the threshold entry resolved for the configured metric or
indicator name carried by the record — not for the RunRow key it was read
from. -/
theorem threshold_resolution_by_config_key (thrMap : ThrMap) (g : Thresholds)
    (hg : thrMap.lookup "global" = some g) :
    (∀ k, resolveThr thrMap k = some ((thrMap.lookup k).getD g)) ∧
    (∀ (row : RunRow) (cm : ClusterMapCfg) res,
      cluster_scores row cm thrMap = some res →
      ∀ r ∈ res.2.2,
        r.severity = classify_severity r.z ((thrMap.lookup r.metric).getD g)) := by
  refine ⟨fun k => by simp [resolveThr, hg], fun row cm res h r hr => ?_⟩
  rw [cluster_scores_eq_of_global row cm thrMap g hg] at h
  rw [Option.some.injEq] at h
  subst h
  simp only [List.mem_flatten, List.mem_map] at hr
  obtain ⟨l, ⟨p, hp, rfl⟩, hrl⟩ := hr
  simp only [clusterRecordsSpec, List.mem_map] at hrl
  obtain ⟨q, hq, rfl⟩ := hrl
  rfl

/-- Claim C5 witness: with a dedicated entry for metric name `"a"`, resolution
picks that entry, and the record emitted for `z_a = 4` carries the severity
classified against the entry resolved for name `"a"`. -/
theorem threshold_resolution_by_config_key_witness :
    (([("global", Thresholds.mk 3 2 1), ("a", Thresholds.mk 10 10 10)] :
      ThrMap).lookup "global" = some (Thresholds.mk 3 2 1)) ∧
    resolveThr [("global", Thresholds.mk 3 2 1), ("a", Thresholds.mk 10 10 10)]
      "a" = some (Thresholds.mk 10 10 10) ∧
    Severity.normal = classify_severity 4
      ((([("global", Thresholds.mk 3 2 1), ("a", Thresholds.mk 10 10 10)] :
        ThrMap).lookup "a").getD (Thresholds.mk 3 2 1)) := by
  refine ⟨rfl, ?_, ?_⟩
  · exact ((threshold_resolution_by_config_key
      [("global", Thresholds.mk 3 2 1), ("a", Thresholds.mk 10 10 10)]
      (Thresholds.mk 3 2 1) rfl).1 "a").trans (by decide)
  · exact (threshold_resolution_by_config_key
      [("global", Thresholds.mk 3 2 1), ("a", Thresholds.mk 10 10 10)]
      (Thresholds.mk 3 2 1) rfl).2 [("z_a", 4)]
      (ClusterMapCfg.mk [("c", ClusterDef.mk ["a"] [])])
      ([("c", 0)], [("c", "none")], [⟨"a", 4, .normal, "c"⟩]) (by decide)
      ⟨"a", 4, .normal, "c"⟩ (List.Mem.head _)

theorem resolveThr_none (thrMap : ThrMap) (hg : thrMap.lookup "global" = none)
    (k : String) : resolveThr thrMap k = none := by
  simp [resolveThr, hg]

theorem processKeys_none_of_global_missing (thrMap : ThrMap) (cname : String)
    (hg : thrMap.lookup "global" = none) :
    ∀ (kvs : List (String × Option Rat)) (acc : Int × List SymptomRecord),
    (kvs.filterMap fun p => p.2.map fun v => (p.1, v)) ≠ [] →
    processKeys thrMap cname kvs acc = none := by
  intro kvs
  induction kvs with
  | nil => intro acc h; exact absurd rfl h
  | cons p rest ih =>
    intro acc h
    obtain ⟨k, v⟩ := p
    cases v with
    | none => exact ih acc (by simpa using h)
    | some v => simp [processKeys, resolveThr_none thrMap hg k]

theorem runClusters_none_of_mem (row : RunRow) (thrMap : ThrMap) :
    ∀ (cs : List (String × ClusterDef)) (cname : String) (c : ClusterDef),
    (cname, c) ∈ cs → processCluster row thrMap cname c = none →
    runClusters row thrMap cs = none := by
  intro cs
  induction cs with
  | nil => intro cname c h _; exact absurd h (List.not_mem_nil _)
  | cons p rest ih =>
    intro cname c hmem hnone
    obtain ⟨cn', c'⟩ := p
    rcases List.mem_cons.mp hmem with heq | htail
    · injection heq with h1 h2
      subst h1; subst h2
      simp [runClusters, hnone]
    · simp only [runClusters]
      cases hpc : processCluster row thrMap cn' c' with
      | none => rfl
      | some pr =>
        obtain ⟨s, recs⟩ := pr
        rw [ih cname c htail hnone]

/-- Claim C10: when the threshold map has no `"global"` entry, `cluster_scores`
fails with a `KeyError` (modelled as `none`) as soon as any metric or
indicator value of any configured cluster resolves — even when that key has
its own entry in the map — because the `"global"` fallback is looked up
unconditionally on every resolution. -/
theorem global_missing_keyerror (row : RunRow) (cm : ClusterMapCfg)
    (thrMap : ThrMap) (cname : String) (c : ClusterDef)
    (hg : thrMap.lookup "global" = none)
    (hmem : (cname, c) ∈ cm.clusters)
    (hres : resolvedPairs row c ≠ []) :
    cluster_scores row cm thrMap = none := by
  have hpc : processCluster row thrMap cname c = none :=
    processKeys_none_of_global_missing thrMap cname hg (keyedValues row c)
      (0, []) (by simpa [resolvedPairs] using hres)
  simp [cluster_scores, runClusters_none_of_mem row thrMap cm.clusters cname c hmem hpc]

/-- Claim C10 witness: the threshold map `[("a", …)]` has an entry for the
resolving key's metric name but no `"global"` entry; `z_a = 1` resolves, and
the whole call fails. -/
theorem global_missing_keyerror_witness :
    (([("a", Thresholds.mk 3 2 1)] : ThrMap).lookup "global" = none) ∧
    ("c", ClusterDef.mk ["a"] []) ∈
      (ClusterMapCfg.mk [("c", ClusterDef.mk ["a"] [])]).clusters ∧
    resolvedPairs [("z_a", 1)] (ClusterDef.mk ["a"] []) ≠ [] ∧
    cluster_scores [("z_a", 1)]
      (ClusterMapCfg.mk [("c", ClusterDef.mk ["a"] [])])
      [("a", Thresholds.mk 3 2 1)] = none :=
  ⟨rfl, List.Mem.head _, by decide,
    global_missing_keyerror [("z_a", 1)]
      (ClusterMapCfg.mk [("c", ClusterDef.mk ["a"] [])])
      [("a", Thresholds.mk 3 2 1)] "c" (ClusterDef.mk ["a"] []) rfl
      (List.Mem.head _) (by decide)⟩

/-- Claim C9 counterexample: the symptom row `diagnose_runs` writes for a
concrete record has field names `run, metric, z, severity, clusters` — the
cluster column is named `"clusters"`, and no field is named `"cluster"`. -/
theorem symptom_row_fields_counterexample :
    ((symptomRow (.s "r1") ⟨"a", 1, .severe, "c"⟩).map Prod.fst =
      ["run", "metric", "z", "severity", "clusters"]) ∧
    "cluster" ∉ (symptomRow (.s "r1") ⟨"a", 1, .severe, "c"⟩).map Prod.fst :=
  ⟨by decide, by decide⟩

/-- Claim C9 (amended): every row `diagnose_runs` writes to the symptom table
has exactly the fields `{run, metric, z, severity, clusters}` — the cluster
column is named `clusters`, not `cluster` — for every run and every record
produced by `cluster_scores`. -/
theorem symptom_row_fields (runId : CellVal) (recs : List SymptomRecord) :
    (symptomRowsFor runId recs).map (fun row => row.map Prod.fst) =
      recs.map (fun _ => ["run", "metric", "z", "severity", "clusters"]) := by
  induction recs with
  | nil => rfl
  | cons r rest ih => simpa [symptomRowsFor, symptomRow] using ih
